import Mathlib

/-!
Verification development for the MI protocol engine (`mi2.ts`): the
component that serializes debugger commands, correlates token-bearing
replies, classifies and demultiplexes subprocess output, and routes
out-of-band notifications to typed events.  JavaScript strings are
modelled as Lean `String`, JavaScript numbers holding command tokens as
`Nat` (tokens start at 1 and only grow; overflow is out of scope at
session lifetimes), and JavaScript `undefined` for possibly-absent
strings as `Option String`.  Falsy-string coercion (`s || d`) and
string-coercion of `undefined` are modelled explicitly.
-/

/-! ## Basic character and list helpers -/

def isDigitCh (c : Char) : Bool := decide (48 ≤ c.toNat) && decide (c.toNat ≤ 57)

def natOfDigits : List Char → Nat → Nat
  | [], acc => acc
  | c :: rest, acc => natOfDigits rest (acc * 10 + (c.toNat - 48))

def listStartsWith : List Char → List Char → Bool
  | [], _ => true
  | _ :: _, [] => false
  | p :: ps, c :: cs => (p = c) && listStartsWith ps cs

def strTake (s : String) (n : Nat) : String := String.mk (s.data.take n)

def strDrop (s : String) (n : Nat) : String := String.mk (s.data.drop n)

def strEndsWithLF (s : String) : Bool :=
  match s.data.getLast? with
  | some c => c = '\n'
  | none => false

/-- JavaScript string split on a newline character: `"".split("\n")` is `[""]`. -/
def splitLFAux : List Char → List Char → List String
  | [], cur => [String.mk cur.reverse]
  | '\n' :: rest, cur => String.mk cur.reverse :: splitLFAux rest []
  | c :: rest, cur => splitLFAux rest (c :: cur)

def splitLF (s : String) : List String := splitLFAux s.data []

/-- Split a buffer at its last newline, as `buffer.lastIndexOf("\n")` followed by
`substr(0, end)` and `substr(end + 1)` do: the newline itself is dropped.
Returns `none` when the buffer holds no newline. -/
def lastLFSplitAux : List Char → Option (List Char × List Char)
  | [] => none
  | c :: rest =>
    match lastLFSplitAux rest with
    | some (pre, post) => some (c :: pre, post)
    | none => if c = '\n' then some ([], rest) else none

def lastLFSplit (s : String) : Option (String × String) :=
  match lastLFSplitAux s.data with
  | some (pre, post) => some (String.mk pre, String.mk post)
  | none => none

/-- JavaScript `a || b` on a possibly-undefined string: `undefined` and the
empty string are falsy, so both select the fallback. -/
def jsStrOr (a : Option String) (b : String) : String :=
  match a with
  | some s => if s = "" then b else s
  | none => b

/-- JavaScript string-coercion of a possibly-undefined string value, as
performed by `+` concatenation: `undefined` coerces to the text `"undefined"`. -/
def jsCoerce (a : Option String) : String :=
  match a with
  | some s => s
  | none => "undefined"

/-- JavaScript truthiness of a possibly-undefined string: `undefined` and `""`
are falsy. -/
def jsTruthy (a : Option String) : Bool :=
  match a with
  | some s => s ≠ ""
  | none => false

/-! ## Line Classifier (mi2.ts lines 15-24)

The source tests each line against `nonOutput = /^(?:\d*|undefined)[\*\+\=]|[\~\@\&\^]/`.
The anchor `^` binds only to the first alternative of the regex, so the second
alternative `[\~\@\&\^]` matches a stream-marker character at ANY position in
the line, not only at its start. -/

/-- First alternative of `nonOutput`: the line starts with an optional numeric
or `undefined` token immediately followed by one of `*`, `+`, `=`. -/
def startsTokenMarker (s : String) : Bool :=
  (match s.data.dropWhile isDigitCh with
   | '*' :: _ => true
   | '+' :: _ => true
   | '=' :: _ => true
   | _ => false)
  ||
  (listStartsWith "undefined".data s.data &&
   (match s.data.drop 9 with
    | '*' :: _ => true
    | '+' :: _ => true
    | '=' :: _ => true
    | _ => false))

/-- Second alternative of `nonOutput`: the character class `[\~\@\&\^]`,
unanchored, so it fires on a stream-marker character anywhere in the line. -/
def containsStreamChar (s : String) : Bool :=
  s.data.any (fun c => c = '~' || c = '@' || c = '&' || c = '^')

/-- The `nonOutput` regex of mi2.ts: `exec` succeeds iff either alternative
matches somewhere. -/
def nonOutputMatch (s : String) : Bool := startsTokenMarker s || containsStreamChar s

/-- The classifier `couldBeOutput` of mi2.ts: a line could be program output
exactly when the `nonOutput` regex finds no match. -/
def couldBeOutput (s : String) : Bool := ! nonOutputMatch s

/-- One trial position of the `gdbMatch` regex `(?:\d*|undefined)\(gdb\)`:
optional digits or the word `undefined`, then the literal `(gdb)`. -/
def gdbAt (l : List Char) : Bool :=
  listStartsWith "(gdb)".data (l.dropWhile isDigitCh) ||
  listStartsWith "undefined(gdb)".data l

def gdbSearch : List Char → Bool
  | [] => false
  | c :: rest => gdbAt (c :: rest) || gdbSearch rest

/-- The `gdbMatch` regex of mi2.ts, applied by `exec` at every position of the
line (the pattern is unanchored). -/
def gdbMatch (s : String) : Bool := gdbSearch s.data

/-! ## Protocol Parser

`parseMI` and `MINode` live in `mi_parse.ts`, which is not part of the sources
under review; the definitions below are modelled from the spec. -/

/-- One out-of-band record: stream records carry decoded text on a
console/target/log channel; exec/status/notify records carry an async class.
For a non-stream record the `content` field stands for the record's parsed
payload object, whose only role in mi2.ts is to be pushed into (and later
wiped from) the unattached-output buffer. -/
structure OOBRecord where
  isStream : Bool
  type : String
  asyncClass : String
  content : String
deriving DecidableEq, Repr

structure ResultRecord where
  resultClass : String
  results : List (String × String)
deriving DecidableEq, Repr

/-- Modelled from the spec: the `MINode` parse result of `mi_parse.ts` (not in
the sources under review).  `token` is the optional leading-digits correlation
token; `resultRecords` is present only on result records; `outOfBandRecord`
is always an array in the source (possibly empty — note the JavaScript
truthiness of `[]`); `recordVals` models the flat name/value view that
`MINode.record(path)` reads for fields such as `reason` and `exit-code`
(nested tuples are not needed by any claim under proof). -/
structure MINode where
  token : Option Nat
  resultRecords : Option ResultRecord
  outOfBandRecord : List OOBRecord
  recordVals : List (String × String)
deriving DecidableEq, Repr

def lookupStr : String → List (String × String) → Option String
  | _, [] => none
  | k, (k2, v) :: rest => if k = k2 then some v else lookupStr k rest

/-- Modelled from the spec: `MINode.result(path)` — value lookup inside the
result record; `undefined` when the record or the field is absent. -/
def MINode.result (n : MINode) (name : String) : Option String :=
  match n.resultRecords with
  | some rr => lookupStr name rr.results
  | none => none

/-- Modelled from the spec: `MINode.record(path)` — value lookup inside the
first out-of-band record's payload. -/
def MINode.record (n : MINode) (name : String) : Option String :=
  lookupStr name n.recordVals

/-- Modelled from the spec: C-style escape decoding of a stream record's
quoted payload (`\n`, `\t`, `\r`, `\"`, `\\`; unknown escapes keep the
escaped character). -/
def decodeEsc (c : Char) : Char :=
  if c = 'n' then '\n' else if c = 't' then '\t' else if c = 'r' then '\x0d' else c

def decodeQuotedAux : List Char → List Char
  | [] => []
  | '\\' :: [] => []
  | '\\' :: c :: rest => decodeEsc c :: decodeQuotedAux rest
  | '"' :: _ => []
  | c :: rest => c :: decodeQuotedAux rest

/-- Modelled from the spec: a stream record's payload is a quoted string with
escape decoding; a payload not opening with a quote yields no content. -/
def parseQuotedPayload (l : List Char) : String :=
  match l with
  | '"' :: rest => String.mk (decodeQuotedAux rest)
  | _ => ""

/-- Scan a quoted value: raw characters up to the closing unescaped quote,
and the remainder after that quote. -/
def scanQuotedAux : List Char → List Char × List Char
  | [] => ([], [])
  | '\\' :: [] => (['\\'], [])
  | '\\' :: c :: rest =>
    let r := scanQuotedAux rest
    ('\\' :: c :: r.1, r.2)
  | '"' :: rest => ([], rest)
  | c :: rest =>
    let r := scanQuotedAux rest
    (c :: r.1, r.2)

def dropComma : List Char → List Char
  | ',' :: rest => rest
  | l => l

/-- Modelled from the spec: flat `name="value"` pair list of a result or async
record's payload, comma separated (nested tuples/lists are beyond what any
claim under proof touches).  Fuelled by the input length to stay structural. -/
def parsePairsFuel : Nat → List Char → List (String × String)
  | 0, _ => []
  | _ + 1, [] => []
  | fuel + 1, l =>
    let name := l.takeWhile (fun c => c ≠ '=')
    match l.dropWhile (fun c => c ≠ '=') with
    | '=' :: '"' :: r2 =>
      let sc := scanQuotedAux r2
      (String.mk name, String.mk (decodeQuotedAux sc.1)) :: parsePairsFuel fuel (dropComma sc.2)
    | _ => []

def parsePairs (l : List Char) : List (String × String) := parsePairsFuel l.length l

/-- Split the leading token of an async or result record: digits, or the
literal `undefined` that the engine itself prepends to the first line of a
session (the classifier and parser regexes both carry an `undefined`
alternative for exactly this). -/
def miTokenSplit (l : List Char) : Option Nat × List Char :=
  if listStartsWith "undefined".data l then (none, l.drop 9)
  else
    let ds := l.takeWhile isDigitCh
    (if ds = [] then none else some (natOfDigits ds 0), l.dropWhile isDigitCh)

def emptyMINode : MINode := ⟨none, none, [], []⟩

def streamMINode (ty : String) (payload : List Char) : MINode :=
  ⟨none, none, [⟨true, ty, "", parseQuotedPayload payload⟩], []⟩

def asyncMINode (tok : Option Nat) (ty : String) (rest : List Char) : MINode :=
  let cls := String.mk (rest.takeWhile (fun c => c ≠ ','))
  let vals := parsePairs (dropComma (rest.dropWhile (fun c => c ≠ ',')))
  ⟨tok, none, [⟨false, ty, cls, ""⟩], vals⟩

def resultMINode (tok : Option Nat) (rest : List Char) : MINode :=
  let cls := String.mk (rest.takeWhile (fun c => c ≠ ','))
  let vals := parsePairs (dropComma (rest.dropWhile (fun c => c ≠ ',')))
  ⟨tok, some ⟨cls, vals⟩, [], []⟩

/-- Modelled from the spec: `parseMI` of `mi_parse.ts` (not in the sources
under review).  Stream records begin with `~` (console), `@` (target) or `&`
(log) and carry a quoted, escape-decoded payload; result records are
`token?^class,pairs`; exec/status/notify async records are `token?` then
`*`/`+`/`=` then `class,pairs`.  A line matching none of these shapes parses
to a node carrying no token, no result record and no out-of-band record. -/
def parseMI (line : String) : MINode :=
  match line.data with
  | '~' :: r => streamMINode "console" r
  | '@' :: r => streamMINode "target" r
  | '&' :: r => streamMINode "log" r
  | l =>
    let ts := miTokenSplit l
    match ts.2 with
    | '*' :: r => asyncMINode ts.1 "exec" r
    | '+' :: r => asyncMINode ts.1 "status" r
    | '=' :: r => asyncMINode ts.1 "notify" r
    | '^' :: r => resultMINode ts.1 r
    | _ => emptyMINode

/-! ## Command Correlator and Event Router state (mi2.ts lines 28-44, 416-456, 515-609) -/

/-- A pending command registered in `handlers` at send time: the handler
closure of `sendCommand` captures the command text and the suppression flag. -/
structure Pending where
  command : String
  suppressFailure : Bool
deriving DecidableEq, Repr

/-- Outcome of one pending completion: the promise resolves or rejects.  A
rejection carries the `MIError` message and the original command text. -/
inductive HandlerResult where
  | resolved
  | rejected (msg : String) (command : String)
deriving DecidableEq, Repr

/-- One observable emission of the engine: a categorized log line (`log`,
`logNoNewLine`), a verbatim-logged node, or a typed event. -/
inductive MIAction where
  | log (channel : String) (msg : String)
  | logNode (channel : String) (node : MINode)
  | emit (event : String)
deriving DecidableEq, Repr

/-- The `log` method (mi2.ts line 420): appends a newline unless the message
already ends in one. -/
def logAction (channel msg : String) : MIAction :=
  MIAction.log channel (if strEndsWithLF msg then msg else msg ++ "\n")

/-- The `logNoNewLine` method (mi2.ts line 416): emits the message verbatim. -/
def logRawAction (channel msg : String) : MIAction := MIAction.log channel msg

/-- Engine state touched by the correlator: `currentToken` (initialized to 1),
the pending-command table `handlers`, and the unattached stream-output buffer
`output`. -/
structure MI2State where
  currentToken : Nat
  handlers : List (Nat × Pending)
  output : List String
deriving DecidableEq, Repr

def initMI2 : MI2State := ⟨1, [], []⟩

def lookupNat : Nat → List (Nat × Pending) → Option Pending
  | _, [] => none
  | k, (k2, v) :: rest => if k = k2 then some v else lookupNat k rest

/-- JavaScript `delete this.handlers[token]`: the key is removed. -/
def eraseNat (t : Nat) (l : List (Nat × Pending)) : List (Nat × Pending) :=
  l.filter (fun e => e.1 != t)

def nodeIsError (n : MINode) : Bool :=
  match n.resultRecords with
  | some rr => rr.resultClass = "error"
  | none => false

/-- The handler closure registered by `sendCommand` (mi2.ts lines 442-453):
on an error-class reply it rejects with the `msg` field (`|| "Internal
error"`) and the command text, unless suppression was requested, in which
case it logs a warning and resolves; every other reply resolves. -/
def runHandler (pd : Pending) (node : MINode) : HandlerResult × List MIAction :=
  if nodeIsError node then
    if pd.suppressFailure then
      (HandlerResult.resolved,
       [logAction "stderr" ("WARNING: Error executing command \x27" ++ pd.command ++ "\x27")])
    else
      (HandlerResult.rejected (jsStrOr (node.result "msg") "Internal error") pd.command, [])
  else
    (HandlerResult.resolved, [])

/-- One delivery to a pending completion: the matched token, the unattached
output attached to the node (`parsed.output = this.output`), and the
handler's outcome. -/
structure Delivery where
  token : Nat
  attached : List String
  result : HandlerResult
deriving DecidableEq, Repr

/-- The `stopped` branch of the exec async dispatch (mi2.ts lines 556-578):
the trace log, one reason-specific event or log+event, then the catch-all
`generic-stopped` event. -/
def stoppedActions (p : MINode) : List MIAction :=
  [logAction "stderr" ("stop: " ++ jsCoerce (p.record "reason"))] ++
  (if p.record "reason" = some "breakpoint-hit" then [MIAction.emit "breakpoint"]
   else if p.record "reason" = some "end-stepping-range" then [MIAction.emit "step-end"]
   else if p.record "reason" = some "function-finished" then [MIAction.emit "step-out-end"]
   else if p.record "reason" = some "signal-received" then [MIAction.emit "signal-stop"]
   else if p.record "reason" = some "exited-normally" then [MIAction.emit "exited-normally"]
   else if p.record "reason" = some "exited" then
     [logAction "stderr" ("Program exited with code " ++ jsCoerce (p.record "exit-code")),
      MIAction.emit "exited-normally"]
   else
     [logAction "console"
        ("Not implemented stop reason (assuming exception): " ++ jsCoerce (p.record "reason")),
      MIAction.emit "stopped"]) ++
  [MIAction.emit "generic-stopped"]

/-- Dispatch of one non-stream out-of-band record (mi2.ts lines 552-595):
exec records raise `exec-async-output` then dispatch on the async class;
notify records raise the thread lifecycle events; anything else is ignored
here (status records have no branch in the source). -/
def dispatchRecord (p : MINode) (r : OOBRecord) : List MIAction :=
  if r.type = "exec" then
    [MIAction.emit "exec-async-output"] ++
    (if r.asyncClass = "running" then [MIAction.emit "running"]
     else if r.asyncClass = "stopped" then stoppedActions p
     else [MIAction.logNode "log" p])
  else if r.type = "notify" then
    (if r.asyncClass = "thread-created" then [MIAction.emit "thread-created"]
     else if r.asyncClass = "thread-exited" then [MIAction.emit "thread-exited"]
     else if r.asyncClass = "thread-selected" then [MIAction.emit "thread-selected"]
     else [])
  else []

/-- Result of feeding one in-band line (already parsed) through `onOutput`:
the successor engine state, the deliveries to pending completions, and the
logs/events raised, in order. -/
structure ProcOut where
  state : MI2State
  delivered : List Delivery
  actions : List MIAction
deriving DecidableEq, Repr

/-- The in-band branch of `onOutput` (mi2.ts lines 523-606) on one parsed
line.  In source order: the content of EVERY out-of-band record is pushed
onto the unattached-output buffer (lines 529-533); a token match invokes and
then deletes the pending handler and resets the buffer (lines 535-543); an
error-class result record with no token match is logged to stderr with its
`msg` field or the raw line (lines 544-546); finally each out-of-band record
is dispatched — a stream record is logged on its channel, a non-stream record
raises its events and RESETS the whole buffer (lines 547-598).  The optional
`debugOutput` echo (line 524) is elided.  The trailing `Unhandled` log (line
604) is dead code, because an empty `outOfBandRecord` array is still truthy,
so line 599 always marks the line handled. -/
def processParsed (st : MI2State) (line : String) (p : MINode) : ProcOut :=
  let out1 := st.output ++ p.outOfBandRecord.map (fun r => r.content)
  let hit : Option (Nat × Pending) :=
    match p.token with
    | some t =>
      match lookupNat t st.handlers with
      | some pd => some (t, pd)
      | none => none
    | none => none
  let handlers1 := match hit with
    | some (t, _) => eraseNat t st.handlers
    | none => st.handlers
  let out2 := match hit with
    | some _ => []
    | none => out1
  let delivered := match hit with
    | some (t, pd) => [⟨t, out1, (runHandler pd p).1⟩]
    | none => []
  let hActs := match hit with
    | some (_, pd) => (runHandler pd p).2
    | none => []
  let errActs :=
    if (!hit.isSome) && nodeIsError p then
      [logAction "stderr" (jsStrOr (p.result "msg") line)]
    else []
  let oob := p.outOfBandRecord.foldl
    (fun (acc : List MIAction × List String) r =>
      if r.isStream then (acc.1 ++ [logAction r.type r.content], acc.2)
      else (acc.1 ++ dispatchRecord p r, []))
    ([], out2)
  ⟨⟨st.currentToken, handlers1, oob.2⟩, delivered, hActs ++ errActs ++ oob.1⟩

/-- One line of `onOutput` (mi2.ts lines 517-522): a line that could be
program output is logged as pass-through stdout unless the prompt-marker
regex fires on it; every other line is parsed and processed in-band. -/
def processLine (st : MI2State) (line : String) : ProcOut :=
  if couldBeOutput line then
    ⟨st, [], if gdbMatch line then [] else [logAction "stdout" line]⟩
  else
    processParsed st line (parseMI line)

/-- `onOutput` (mi2.ts lines 515-517): split the completed chunk on newlines
and process each line in order. -/
def onOutput (st : MI2State) (chunk : String) : ProcOut :=
  (splitLF chunk).foldl
    (fun (acc : ProcOut) line =>
      let po := processLine acc.state line
      ⟨po.state, acc.delivered ++ po.delivered, acc.actions ++ po.actions⟩)
    ⟨st, [], []⟩

/-! ## Stream Demultiplexer (mi2.ts lines 462-481, 507-513) -/

/-- Demultiplexer state: the engine state plus the stdout accumulation
buffer.  The TypeScript field `buffer` is declared without an initializer,
so on a fresh engine it holds the JavaScript value `undefined` (modelled as
`none`); the first `this.buffer += data` then string-coerces it to the text
`"undefined"`. -/
structure DemuxState where
  engine : MI2State
  buffer : Option String
deriving DecidableEq, Repr

/-- `onOutputPartial` (mi2.ts lines 507-513): a buffered partial line that
classifies as pass-through is emitted immediately (without a newline) and the
buffer is cleared; otherwise it keeps buffering. -/
def onOutputPartialFlushes (line : String) : Bool := couldBeOutput line

/-- The `stdout` data callback (mi2.ts lines 462-481): trace-log the chunk,
append it to the buffer, process every complete line up to the last newline,
then attempt speculative partial handling on the remainder. -/
def stdoutData (st : DemuxState) (data : String) : DemuxState × List Delivery × List MIAction :=
  let traceAct := logAction "stderr" ("<= " ++ data)
  let buf := jsCoerce st.buffer ++ data
  let afterLines : MI2State × String × List Delivery × List MIAction :=
    match lastLFSplit buf with
    | some (pre, post) =>
      let po := onOutput st.engine pre
      (po.state, post, po.delivered, po.actions)
    | none => (st.engine, buf, [], [])
  let eng := afterLines.1
  let rest := afterLines.2.1
  let dels := afterLines.2.2.1
  let acts := afterLines.2.2.2
  if rest = "" then (⟨eng, some ""⟩, dels, [traceAct] ++ acts)
  else if onOutputPartialFlushes rest then
    (⟨eng, some ""⟩, dels, [traceAct] ++ acts ++ [logRawAction "stdout" rest])
  else
    (⟨eng, some rest⟩, dels, [traceAct] ++ acts)

/-- Feed a sequence of data chunks to the demultiplexer, collecting every
action raised, in order. -/
def feedChunks (st : DemuxState) (chunks : List String) : List MIAction :=
  (chunks.foldl
    (fun (acc : DemuxState × List MIAction) d =>
      let r := stdoutData acc.1 d
      (r.1, acc.2 ++ r.2.2))
    (st, [])).2

/-- The decoded console-channel stream lines among a list of actions. -/
def consoleActs (as : List MIAction) : List MIAction :=
  as.filter (fun a =>
    match a with
    | MIAction.log ch _ => ch = "console"
    | _ => false)

/-! ## Command Correlator send path (mi2.ts lines 432-456) -/

/-- The `sendRaw` wire write (mi2.ts line 436): the raw text plus a newline. -/
def sendRawWire (raw : String) : String := raw ++ "\n"

/-- One `sendCommand` call (mi2.ts lines 439-456): allocate the next token
with `this.currentToken++`, register the pending handler under it, and write
`sel + "-" + command` through `sendRaw`.  Returns the successor state and the
line written to the subprocess's standard input. -/
def sendCommandStep (st : MI2State) (command : String) (suppressFailure : Bool) :
    MI2State × String :=
  let sel := st.currentToken
  (⟨sel + 1, (sel, ⟨command, suppressFailure⟩) :: st.handlers, st.output⟩,
   sendRawWire (toString sel ++ "-" ++ command))

/-- Successive `sendCommand` calls on one engine instance, collecting the
wire lines in order (each with the default suppression flag). -/
def sendMany (st : MI2State) : List String → MI2State × List String
  | [] => (st, [])
  | c :: rest =>
    let r := sendCommandStep st c false
    let rr := sendMany r.1 rest
    (rr.1, r.2 :: rr.2)

/-- The wire lines the specification promises: the decimal token, a dash, the
command text and a newline, with the token increasing by one from `tok` on. -/
def wireSpec (tok : Nat) : List String → List String
  | [] => []
  | c :: rest => (toString tok ++ "-" ++ c ++ "\n") :: wireSpec (tok + 1) rest

/-! ## Breakpoint insertion (mi2.ts lines 11-13, 17, 188-236) -/

/-- The `escape` helper (mi2.ts lines 11-13): double every backslash, then
escape every double quote. -/
def escBackslash : List Char → List Char
  | [] => []
  | '\\' :: rest => '\\' :: '\\' :: escBackslash rest
  | c :: rest => c :: escBackslash rest

def escQuote : List Char → List Char
  | [] => []
  | '"' :: rest => '\\' :: '"' :: escQuote rest
  | c :: rest => c :: escQuote rest

def escape (s : String) : String := String.mk (escQuote (escBackslash s.data))

/-- The Breakpoint record of backend.ts, restricted to the fields
`addBreakPoint` reads when building the location argument. -/
structure Breakpoint where
  countCondition : Option String
  condition : Option String
  raw : Option String
  file : Option String
  line : Nat
deriving DecidableEq, Repr

/-- The `numRegex = /\d+/` match of mi2.ts: the first maximal digit run of
the string, or `null` when the string holds no digit. -/
def firstDigitRun : List Char → Option String
  | [] => none
  | c :: rest =>
    if isDigitCh c then some (String.mk (c :: rest.takeWhile isDigitCh))
    else firstDigitRun rest

/-- Outcome of building the `break-insert` location argument: either the
location text together with the warning logs emitted while building it, or
the JavaScript TypeError thrown when a `numRegex.exec(...)!` non-null
assertion dereferences a null match. -/
inductive BpBuild where
  | ok (location : String) (warnings : List String)
  | jsTypeError
deriving DecidableEq, Repr

/-- The warning text of mi2.ts line 201. -/
def countWarn (cc : String) : String :=
  "Unsupported break count expression: \x27" ++ cc ++
  "\x27. Only supports \x27X\x27 for breaking once after X times or \x27>X\x27 for ignoring the first X breaks"

/-- The location-building prefix of `addBreakPoint` (mi2.ts lines 193-207):
a truthy `countCondition` starting with `>` contributes an ignore-count flag
from its first digit run; otherwise the first digit run of the whole string
is compared against it — a partial match degrades to a temporary breakpoint
with a warning, a full nonzero match contributes a one-shot-after-N flag, and
a full zero match contributes nothing.  Both digit-run extractions apply a
non-null assertion to `numRegex.exec(...)`, so a string without any digit
throws a TypeError at run time. -/
def countPrefix (cc : String) : Option (String × List String) :=
  if cc.data.head? = some '>' then
    match firstDigitRun (cc.data.drop 1) with
    | none => none
    | some m => some ("-i " ++ m ++ " ", [])
  else
    match firstDigitRun cc.data with
    | none => none
    | some m =>
      if m.length ≠ cc.length then some ("-t ", [countWarn cc])
      else if natOfDigits m.data 0 ≠ 0 then
        some ("-t -i " ++ toString (natOfDigits m.data 0) ++ " ", [])
      else some ("", [])

/-- The full location argument of `addBreakPoint` (mi2.ts lines 193-213):
the count-condition prefix, then either `*` plus the escaped raw address
expression, or the quoted, escaped `file:line` pair (`"<unknown>"` when the
file is falsy). -/
def buildBreakLoc (bp : Breakpoint) : BpBuild :=
  let pre : Option (String × List String) :=
    if jsTruthy bp.countCondition then countPrefix (jsCoerce bp.countCondition)
    else some ("", [])
  match pre with
  | none => BpBuild.jsTypeError
  | some (p, warns) =>
    let tail :=
      if jsTruthy bp.raw then "*" ++ escape (jsCoerce bp.raw)
      else "\"" ++ escape (jsStrOr bp.file "<unknown>") ++ ":" ++ toString bp.line ++ "\""
    BpBuild.ok (p ++ tail) warns

/-! ## Helper lemmas -/

theorem sendMany_lines (cmds : List String) (st : MI2State) :
    (sendMany st cmds).2 = wireSpec st.currentToken cmds := by
  induction cmds generalizing st with
  | nil => rfl
  | cons c rest ih =>
    simp [sendMany, sendCommandStep, wireSpec, sendRawWire, ih]

theorem sendMany_token (cmds : List String) (st : MI2State) :
    (sendMany st cmds).1.currentToken = st.currentToken + cmds.length := by
  induction cmds generalizing st with
  | nil => rfl
  | cons c rest ih =>
    simp [sendMany, sendCommandStep, ih]
    omega

theorem sendMany_handlers_lt (cmds : List String) (st : MI2State)
    (h : ∀ e ∈ st.handlers, e.1 < st.currentToken) :
    ∀ e ∈ (sendMany st cmds).1.handlers, e.1 < (sendMany st cmds).1.currentToken := by
  induction cmds generalizing st with
  | nil => exact h
  | cons c rest ih =>
    intro e he
    refine ih _ ?_ e he
    intro e2 he2
    simp only [sendCommandStep, List.mem_cons] at he2
    rcases he2 with h1 | h2
    · simp [sendCommandStep, h1]
    · have := h e2 h2
      simp only [sendCommandStep]
      omega

theorem lookupNat_eraseNat (t : Nat) (l : List (Nat × Pending)) :
    lookupNat t (eraseNat t l) = none := by
  induction l with
  | nil => rfl
  | cons e rest ih =>
    by_cases h : e.1 = t
    · simpa [eraseNat, List.filter_cons, bne_iff_ne, h] using ih
    · simpa [eraseNat, List.filter_cons, bne_iff_ne, h, lookupNat, Ne.symm h] using ih

/-! ## Claims C1, C5, C10 -/

/-- C1: on one engine instance, every `sendCommand` writes exactly the
decimal token, a dash, the command text and a newline to the subprocess's
standard input, with the token starting at 1 and increasing by one per call
(hence strictly increasing and, since the next token always exceeds every
pending one, never reused while pending). -/
theorem c1_wire_format (cmds : List String) :
    (sendMany initMI2 cmds).2 = wireSpec 1 cmds ∧
    (sendMany initMI2 cmds).1.currentToken = 1 + cmds.length ∧
    ∀ e ∈ (sendMany initMI2 cmds).1.handlers,
      e.1 < (sendMany initMI2 cmds).1.currentToken := by
  refine ⟨sendMany_lines cmds initMI2, sendMany_token cmds initMI2, ?_⟩
  exact sendMany_handlers_lt cmds initMI2 (by intro e he; simp [initMI2] at he)

/-- C5: evaluating the location builder of `addBreakPoint` at the three
count conditions of the claim.  The first two behave as the claim states,
but `countCondition = "abc"` does not degrade to a temporary breakpoint with
a warning: `numRegex.exec("abc")` is `null` and the non-null assertion
`![0]` dereferences it, so the code throws a TypeError inside the promise
executor and no `break-insert` command is ever sent. -/
theorem c5_count_condition :
    buildBreakLoc ⟨some ">3", none, none, some "main.c", 7⟩ =
      BpBuild.ok "-i 3 \"main.c:7\"" [] ∧
    buildBreakLoc ⟨some "5", none, none, some "main.c", 7⟩ =
      BpBuild.ok "-t -i 5 \"main.c:7\"" [] ∧
    buildBreakLoc ⟨some "abc", none, none, some "main.c", 7⟩ =
      BpBuild.jsTypeError := by
  decide

/-- C10: a `countCondition` equal to the string `"0"` is truthy, reaches the
full-numeric branch, and contributes nothing because `parseInt("0") !== 0`
fails, so the `break-insert` location argument is exactly the one built when
no count condition is given at all. -/
theorem c10_zero_count (cond raw file : Option String) (line : Nat) :
    buildBreakLoc ⟨some "0", cond, raw, file, line⟩ =
    buildBreakLoc ⟨none, cond, raw, file, line⟩ := by
  rfl

/-! ## Claim C3 -/

def isRejected : HandlerResult → Bool
  | HandlerResult.rejected _ _ => true
  | HandlerResult.resolved => false

/-- C3 counterexample: a reply whose result class is `error` and whose `msg`
field is present but EMPTY.  The claim promises a failure message equal to
the `msg` field (the fallback literal being reserved for an absent field),
but `node.result("msg") || "Internal error"` treats the empty string as
falsy, so the code rejects with `"Internal error"` instead of `""`. -/
theorem c3_empty_msg_cex :
    MINode.result ⟨some 5, some ⟨"error", [("msg", "")]⟩, [], []⟩ "msg" = some "" ∧
    (runHandler ⟨"data-evaluate-expression x", false⟩
        ⟨some 5, some ⟨"error", [("msg", "")]⟩, [], []⟩).1 =
      HandlerResult.rejected "Internal error" "data-evaluate-expression x" ∧
    "Internal error" ≠ "" := by
  decide

/-- C3 amended: the completion rejects iff the reply's result class is
`error` and suppression was not requested; the failure message equals the
`msg` field when that field is present AND non-empty, and the literal
`"Internal error"` when it is absent or empty; the failure carries the
original command text; under suppression an error reply logs a warning and
resolves successfully. -/
theorem c3_error_rejection (cmd : String) (suppress : Bool) (node : MINode) :
    (isRejected (runHandler ⟨cmd, suppress⟩ node).1 = true ↔
      nodeIsError node = true ∧ suppress = false) ∧
    (nodeIsError node = true → suppress = false →
      (runHandler ⟨cmd, suppress⟩ node).1 =
        HandlerResult.rejected
          (match node.result "msg" with
           | some m => if m = "" then "Internal error" else m
           | none => "Internal error") cmd) ∧
    (nodeIsError node = true → suppress = true →
      runHandler ⟨cmd, suppress⟩ node =
        (HandlerResult.resolved,
         [logAction "stderr" ("WARNING: Error executing command \x27" ++ cmd ++ "\x27")])) ∧
    (nodeIsError node = false → runHandler ⟨cmd, suppress⟩ node = (HandlerResult.resolved, [])) := by
  by_cases he : nodeIsError node <;> by_cases hs : suppress <;>
    simp [runHandler, he, hs, isRejected, jsStrOr]

/-- C3 witness: a concrete error reply with a non-empty message rejects with
that message and the original command text. -/
theorem c3_error_rejection_witness :
    (runHandler ⟨"break-insert main", false⟩
        ⟨some 2, some ⟨"error", [("msg", "No symbol table is loaded.")]⟩, [], []⟩).1 =
      HandlerResult.rejected "No symbol table is loaded." "break-insert main" := by
  have h := (c3_error_rejection "break-insert main" false
    ⟨some 2, some ⟨"error", [("msg", "No symbol table is loaded.")]⟩, [], []⟩).2.1 (by decide) rfl
  exact h

/-! ## Claim C4 -/

/-- C4 counterexample: the line `a~b` starts with neither a token-and-marker
prefix nor a stream-marker character, so the claim classifies it as
pass-through program output; but the second alternative of the `nonOutput`
regex is unanchored, so the `~` in the middle of the line makes
`couldBeOutput` answer false and the engine treats the line as in-band. -/
theorem c4_unanchored_cex :
    startsTokenMarker "a~b" = false ∧
    "a~b".data.head? ≠ some '~' ∧ "a~b".data.head? ≠ some '@' ∧
    "a~b".data.head? ≠ some '&' ∧ "a~b".data.head? ≠ some '^' ∧
    couldBeOutput "a~b" = false ∧
    processLine initMI2 "a~b" = ⟨initMI2, [], []⟩ := by
  decide

/-- C4 amended: a complete line is classified as in-band exactly when it
begins with an optional numeric or `undefined` token immediately followed by
one of `*`, `+`, `=`, or CONTAINS one of the stream-marker characters `~`,
`@`, `&`, `^` anywhere in the line (the character-class alternative of the
classifier regex is unanchored); every other line is forwarded as
pass-through program output, except lines on which the prompt-marker pattern
fires, which are discarded entirely. -/
theorem c4_classification (st : MI2State) (line : String) :
    ((startsTokenMarker line || containsStreamChar line) = true →
      processLine st line = processParsed st line (parseMI line)) ∧
    ((startsTokenMarker line || containsStreamChar line) = false → gdbMatch line = true →
      processLine st line = ⟨st, [], []⟩) ∧
    ((startsTokenMarker line || containsStreamChar line) = false → gdbMatch line = false →
      processLine st line = ⟨st, [], [logAction "stdout" line]⟩) := by
  refine ⟨?_, ?_, ?_⟩
  · intro h
    simp [processLine, couldBeOutput, nonOutputMatch, h]
  · intro h hg
    simp [processLine, couldBeOutput, nonOutputMatch, h, hg]
  · intro h hg
    simp [processLine, couldBeOutput, nonOutputMatch, h, hg]

/-- C4 witness: the three dispositions at concrete lines — an async record
line is processed in-band, a prompt line is discarded, and an ordinary text
line is forwarded as program output. -/
theorem c4_classification_witness :
    processLine initMI2 "*stopped" = processParsed initMI2 "*stopped" (parseMI "*stopped") ∧
    processLine initMI2 "(gdb)" = ⟨initMI2, [], []⟩ ∧
    processLine initMI2 "hello world" = ⟨initMI2, [], [logAction "stdout" "hello world"]⟩ := by
  refine ⟨(c4_classification initMI2 "*stopped").1 (by decide),
    (c4_classification initMI2 "(gdb)").2.1 (by decide) (by decide),
    (c4_classification initMI2 "hello world").2.2 (by decide) (by decide)⟩

/-! ## Claim C2 -/

/-- C2: a reply record whose token matches a pending command invokes that
command's completion exactly once (delivering the handler's resolve/reject
outcome), and the token is deleted from the pending table in the same step;
any record carrying a token with no pending entry — in particular a later
record reusing the same token — delivers no completion at all. -/
theorem c2_single_completion (st : MI2State) (line : String) (p : MINode) (t : Nat) (pd : Pending)
    (htok : p.token = some t) (hpend : lookupNat t st.handlers = some pd) :
    (processParsed st line p).delivered =
      [⟨t, st.output ++ p.outOfBandRecord.map (fun r => r.content), (runHandler pd p).1⟩] ∧
    lookupNat t (processParsed st line p).state.handlers = none ∧
    (∀ st2 : MI2State, ∀ line2 : String, ∀ p2 : MINode, p2.token = some t →
      lookupNat t st2.handlers = none → (processParsed st2 line2 p2).delivered = []) := by
  refine ⟨?_, ?_, ?_⟩
  · simp [processParsed, htok, hpend]
  · simp [processParsed, htok, hpend, lookupNat_eraseNat]
  · intro st2 line2 p2 htok2 hnone
    simp [processParsed, htok2, hnone]

/-- C2 witness: with token 3 pending, the reply `3^done` resolves it once and
removes it, and replaying the same reply from the successor state delivers
nothing. -/
theorem c2_single_completion_witness :
    (processParsed ⟨4, [(3, ⟨"exec-continue", false⟩)], []⟩ "3^done"
        ⟨some 3, some ⟨"done", []⟩, [], []⟩).delivered =
      [⟨3, [], HandlerResult.resolved⟩] ∧
    lookupNat 3 (processParsed ⟨4, [(3, ⟨"exec-continue", false⟩)], []⟩ "3^done"
        ⟨some 3, some ⟨"done", []⟩, [], []⟩).state.handlers = none ∧
    (processParsed (processParsed ⟨4, [(3, ⟨"exec-continue", false⟩)], []⟩ "3^done"
        ⟨some 3, some ⟨"done", []⟩, [], []⟩).state "3^done"
        ⟨some 3, some ⟨"done", []⟩, [], []⟩).delivered = [] := by
  have h := c2_single_completion ⟨4, [(3, ⟨"exec-continue", false⟩)], []⟩ "3^done"
    ⟨some 3, some ⟨"done", []⟩, [], []⟩ 3 ⟨"exec-continue", false⟩ rfl (by decide)
  exact ⟨h.1, h.2.1, h.2.2 _ "3^done" _ rfl h.2.1⟩

/-! ## Claim C9 -/

/-- C9 counterexample: an unmatched error reply whose `msg` field is present
but EMPTY.  The claim promises that the `msg` field is logged (the raw line
being reserved for an absent field), but `parsed.result("msg") || line`
treats the empty string as falsy, so the code logs the whole raw line
instead of the empty message. -/
theorem c9_empty_msg_cex :
    MINode.result ⟨some 9, some ⟨"error", [("msg", "")]⟩, [], []⟩ "msg" = some "" ∧
    (processParsed initMI2 "9^error,msg=\"\""
        ⟨some 9, some ⟨"error", [("msg", "")]⟩, [], []⟩).actions =
      [MIAction.log "stderr" "9^error,msg=\"\"\n"] ∧
    MIAction.log "stderr" "9^error,msg=\"\"\n" ≠ MIAction.log "stderr" "\n" := by
  decide

/-- C9 amended: an in-band error-class result record whose token matches no
pending command resolves or rejects no completion, leaves the pending table
unchanged, and logs to the stderr channel the record's `msg` field when it
is present and non-empty, and the whole raw line otherwise. -/
theorem c9_stray_error (st : MI2State) (line : String) (p : MINode)
    (herr : nodeIsError p = true)
    (hnm : ∀ t : Nat, p.token = some t → lookupNat t st.handlers = none) :
    (processParsed st line p).delivered = [] ∧
    (processParsed st line p).state.handlers = st.handlers ∧
    logAction "stderr"
        (match p.result "msg" with
         | some m => if m = "" then line else m
         | none => line) ∈ (processParsed st line p).actions := by
  have hmsg : jsStrOr (p.result "msg") line =
      (match p.result "msg" with
       | some m => if m = "" then line else m
       | none => line) := by
    rcases p.result "msg" with _ | m <;> rfl
  rcases htok : p.token with _ | t
  · refine ⟨by simp [processParsed, htok], by simp [processParsed, htok], ?_⟩
    simp [processParsed, htok, herr, hmsg]
  · have hnone := hnm t htok
    refine ⟨by simp [processParsed, htok, hnone], by simp [processParsed, htok, hnone], ?_⟩
    simp [processParsed, htok, hnone, herr, hmsg]

/-- C9 witness: a concrete unmatched error reply with a non-empty message —
nothing is delivered, the pending table is untouched, and the message is
logged to stderr. -/
theorem c9_stray_error_witness :
    (processParsed ⟨4, [(3, ⟨"exec-continue", false⟩)], []⟩ "9^error,msg=\"boom\""
        ⟨some 9, some ⟨"error", [("msg", "boom")]⟩, [], []⟩).delivered = [] ∧
    (processParsed ⟨4, [(3, ⟨"exec-continue", false⟩)], []⟩ "9^error,msg=\"boom\""
        ⟨some 9, some ⟨"error", [("msg", "boom")]⟩, [], []⟩).state.handlers =
      [(3, ⟨"exec-continue", false⟩)] ∧
    logAction "stderr" "boom" ∈ (processParsed ⟨4, [(3, ⟨"exec-continue", false⟩)], []⟩
        "9^error,msg=\"boom\"" ⟨some 9, some ⟨"error", [("msg", "boom")]⟩, [], []⟩).actions := by
  have h := c9_stray_error ⟨4, [(3, ⟨"exec-continue", false⟩)], []⟩ "9^error,msg=\"boom\""
    ⟨some 9, some ⟨"error", [("msg", "boom")]⟩, [], []⟩ (by decide)
    (by intro t ht; cases ht; decide)
  exact ⟨h.1, h.2.1, h.2.2⟩

/-! ## Claim C8 -/

theorem oobFold_snd_nil (p : MINode) (rs : List OOBRecord) (acc : List MIAction) :
    (rs.foldl
      (fun (acc : List MIAction × List String) r =>
        if r.isStream then (acc.1 ++ [logAction r.type r.content], acc.2)
        else (acc.1 ++ dispatchRecord p r, []))
      (acc, [])).2 = [] := by
  induction rs generalizing acc with
  | nil => rfl
  | cons r rest ih =>
    by_cases h : r.isStream <;> simp [List.foldl_cons, h, ih]

/-- C8 counterexample: a console stream record accumulates the text `a`; a
following thread-created notify record is dispatched and — because line 531
pushes the content of EVERY out-of-band record and line 596 then resets the
whole buffer after a non-stream record — wipes the accumulated `a`; the
token-matched reply that resolves next therefore delivers an empty
accumulation, although the stream text accumulated since the previous
resolution was `["a"]`. -/
theorem c8_lost_output_cex :
    (processParsed ⟨4, [(3, ⟨"exec-continue", false⟩)], []⟩ "~\"a\""
        ⟨none, none, [⟨true, "console", "", "a"⟩], []⟩).state.output = ["a"] ∧
    (processParsed
        (processParsed (processParsed ⟨4, [(3, ⟨"exec-continue", false⟩)], []⟩ "~\"a\""
            ⟨none, none, [⟨true, "console", "", "a"⟩], []⟩).state
          "=thread-created,id=\"1\",group-id=\"1\""
          ⟨none, none, [⟨false, "notify", "thread-created", ""⟩], [("id", "1"), ("group-id", "1")]⟩).state
        "3^done" ⟨some 3, some ⟨"done", []⟩, [], []⟩).delivered =
      [⟨3, [], HandlerResult.resolved⟩] ∧
    ([] : List String) ≠ ["a"] := by
  decide

/-- C8 amended: the content of EVERY out-of-band record — stream or not —
is appended to the pending unattached-output buffer; dispatching a
non-stream record then clears the entire buffer; a token-matched reply
delivers the buffer contents as of its own line (the buffer text surviving
since the last resolution or the last non-stream out-of-band record, plus
its own line's record contents), and the buffer is empty after the
resolution. -/
theorem c8_buffer_rule (st : MI2State) (line : String) (p : MINode) :
    (∀ r : OOBRecord, p.outOfBandRecord = [r] → p.token = none →
      (processParsed st line p).state.output =
        (if r.isStream then st.output ++ [r.content] else [])) ∧
    (∀ t : Nat, ∀ pd : Pending, p.token = some t → lookupNat t st.handlers = some pd →
      (processParsed st line p).delivered =
        [⟨t, st.output ++ p.outOfBandRecord.map (fun r => r.content), (runHandler pd p).1⟩] ∧
      (processParsed st line p).state.output = []) := by
  refine ⟨?_, ?_⟩
  · intro r hr htok
    by_cases h : r.isStream <;> simp [processParsed, hr, htok, h]
  · intro t pd htok hpend
    refine ⟨by simp [processParsed, htok, hpend], ?_⟩
    simp [processParsed, htok, hpend, oobFold_snd_nil]

/-- C8 witness: concrete instances of the amended buffer rule — a stream
record appends, a notify record clears, and a token-matched reply delivers
the accumulation and empties the buffer. -/
theorem c8_buffer_rule_witness :
    (processParsed ⟨4, [], ["a"]⟩ "~\"b\""
        ⟨none, none, [⟨true, "console", "", "b"⟩], []⟩).state.output = ["a", "b"] ∧
    (processParsed ⟨4, [], ["a"]⟩ "=thread-created,id=\"1\",group-id=\"1\""
        ⟨none, none, [⟨false, "notify", "thread-created", ""⟩], [("id", "1")]⟩).state.output = [] ∧
    (processParsed ⟨4, [(3, ⟨"exec-continue", false⟩)], ["a"]⟩ "3^done"
        ⟨some 3, some ⟨"done", []⟩, [], []⟩).delivered =
      [⟨3, ["a"], HandlerResult.resolved⟩] ∧
    (processParsed ⟨4, [(3, ⟨"exec-continue", false⟩)], ["a"]⟩ "3^done"
        ⟨some 3, some ⟨"done", []⟩, [], []⟩).state.output = [] := by
  have h1 := (c8_buffer_rule ⟨4, [], ["a"]⟩ "~\"b\""
    ⟨none, none, [⟨true, "console", "", "b"⟩], []⟩).1 ⟨true, "console", "", "b"⟩ rfl rfl
  have h2 := (c8_buffer_rule ⟨4, [], ["a"]⟩ "=thread-created,id=\"1\",group-id=\"1\""
    ⟨none, none, [⟨false, "notify", "thread-created", ""⟩], [("id", "1")]⟩).1
    ⟨false, "notify", "thread-created", ""⟩ rfl rfl
  have h3 := (c8_buffer_rule ⟨4, [(3, ⟨"exec-continue", false⟩)], ["a"]⟩ "3^done"
    ⟨some 3, some ⟨"done", []⟩, [], []⟩).2 3 ⟨"exec-continue", false⟩ rfl (by decide)
  exact ⟨by simpa using h1, by simpa using h2, by simpa using h3.1, h3.2⟩

/-! ## Claim C7 -/

def knownStopReasons : List String :=
  ["breakpoint-hit", "end-stepping-range", "function-finished",
   "signal-received", "exited-normally", "exited"]

/-- C7: dispatching an exec async record of class `stopped` raises exactly
one `generic-stopped` event, and the reason-specific behavior is as the
claim states: `breakpoint-hit`, `end-stepping-range`, `function-finished`,
`signal-received`, `exited-normally` raise their respective events;
`exited` logs the exit code and raises `exited-normally`; any other or
missing reason logs an unimplemented-reason message and raises the generic
`stopped` event.  (The leading `exec-async-output` event and the `stop:`
trace log accompany every variant.) -/
theorem c7_stopped_dispatch (p : MINode) (r : OOBRecord)
    (ht : r.type = "exec") (ha : r.asyncClass = "stopped") :
    ((dispatchRecord p r).filter
      (fun a => decide (a = MIAction.emit "generic-stopped"))).length = 1 ∧
    (p.record "reason" = some "breakpoint-hit" → dispatchRecord p r =
      [MIAction.emit "exec-async-output", logAction "stderr" "stop: breakpoint-hit",
       MIAction.emit "breakpoint", MIAction.emit "generic-stopped"]) ∧
    (p.record "reason" = some "end-stepping-range" → dispatchRecord p r =
      [MIAction.emit "exec-async-output", logAction "stderr" "stop: end-stepping-range",
       MIAction.emit "step-end", MIAction.emit "generic-stopped"]) ∧
    (p.record "reason" = some "function-finished" → dispatchRecord p r =
      [MIAction.emit "exec-async-output", logAction "stderr" "stop: function-finished",
       MIAction.emit "step-out-end", MIAction.emit "generic-stopped"]) ∧
    (p.record "reason" = some "signal-received" → dispatchRecord p r =
      [MIAction.emit "exec-async-output", logAction "stderr" "stop: signal-received",
       MIAction.emit "signal-stop", MIAction.emit "generic-stopped"]) ∧
    (p.record "reason" = some "exited-normally" → dispatchRecord p r =
      [MIAction.emit "exec-async-output", logAction "stderr" "stop: exited-normally",
       MIAction.emit "exited-normally", MIAction.emit "generic-stopped"]) ∧
    (p.record "reason" = some "exited" → dispatchRecord p r =
      [MIAction.emit "exec-async-output", logAction "stderr" "stop: exited",
       logAction "stderr" ("Program exited with code " ++ jsCoerce (p.record "exit-code")),
       MIAction.emit "exited-normally", MIAction.emit "generic-stopped"]) ∧
    ((∀ s : String, p.record "reason" = some s → s ∉ knownStopReasons) →
      dispatchRecord p r =
      [MIAction.emit "exec-async-output",
       logAction "stderr" ("stop: " ++ jsCoerce (p.record "reason")),
       logAction "console"
         ("Not implemented stop reason (assuming exception): " ++ jsCoerce (p.record "reason")),
       MIAction.emit "stopped", MIAction.emit "generic-stopped"]) := by
  have hd : dispatchRecord p r = MIAction.emit "exec-async-output" :: stoppedActions p := by
    simp [dispatchRecord, ht, ha]
  refine ⟨?_, ?_, ?_, ?_, ?_, ?_, ?_, ?_⟩
  · rw [hd]
    unfold stoppedActions
    split_ifs <;> simp [logAction]
  · intro h
    rw [hd]
    simp [stoppedActions, h, jsCoerce]
  · intro h
    rw [hd]
    simp [stoppedActions, h, jsCoerce]
  · intro h
    rw [hd]
    simp [stoppedActions, h, jsCoerce]
  · intro h
    rw [hd]
    simp [stoppedActions, h, jsCoerce]
  · intro h
    rw [hd]
    simp [stoppedActions, h, jsCoerce]
  · intro h
    rw [hd]
    simp [stoppedActions, h, jsCoerce]
  · intro hun
    rw [hd]
    rcases hre : p.record "reason" with _ | s
    · simp [stoppedActions, hre]
    · have h6 := hun s hre
      simp only [knownStopReasons, List.mem_cons, List.not_mem_nil, or_false] at h6
      push_neg at h6
      simp [stoppedActions, hre, h6.1, h6.2.1, h6.2.2.1, h6.2.2.2.1, h6.2.2.2.2.1, h6.2.2.2.2.2]

/-- C7 witness: a concrete `breakpoint-hit` stop raises the breakpoint event
and exactly one generic-stopped event. -/
theorem c7_stopped_dispatch_witness :
    ((dispatchRecord ⟨none, none, [⟨false, "exec", "stopped", ""⟩], [("reason", "breakpoint-hit")]⟩
        ⟨false, "exec", "stopped", ""⟩).filter
      (fun a => decide (a = MIAction.emit "generic-stopped"))).length = 1 ∧
    dispatchRecord ⟨none, none, [⟨false, "exec", "stopped", ""⟩], [("reason", "breakpoint-hit")]⟩
        ⟨false, "exec", "stopped", ""⟩ =
      [MIAction.emit "exec-async-output", logAction "stderr" "stop: breakpoint-hit",
       MIAction.emit "breakpoint", MIAction.emit "generic-stopped"] := by
  have h := c7_stopped_dispatch
    ⟨none, none, [⟨false, "exec", "stopped", ""⟩], [("reason", "breakpoint-hit")]⟩
    ⟨false, "exec", "stopped", ""⟩ rfl rfl
  exact ⟨h.1, h.2.1 (by decide)⟩

/-! ## Claim C6 -/

/-- The byte sequence of the claim: two console stream lines. -/
def c6input : String := "~\"a\"\n~\"b\"\n"

/-- A freshly constructed engine: the `buffer` field is uninitialized, i.e.
holds the JavaScript value `undefined`. -/
def freshDemux : DemuxState := ⟨initMI2, none⟩

/-- A demultiplexer whose accumulation buffer is the empty string — the
state of every engine after its first data delivery has been processed. -/
def emptyBufDemux : DemuxState := ⟨initMI2, some ""⟩

/-- C6 counterexample: on a freshly constructed engine the uninitialized
buffer is string-coerced to the text `undefined` by the first
`this.buffer += data`.  Feeding the sequence as a single chunk glues
`undefined` onto the first line, which then fails to parse as a stream
record and is swallowed, so only `b` is decoded; feeding it split at byte
offset 0 first flushes the partial `undefined` as program output and then
decodes both `a` and `b`.  The two deliveries therefore do NOT produce the
same decoded console stream lines. -/
theorem c6_fresh_buffer_cex :
    consoleActs (feedChunks freshDemux [strTake c6input 0, strDrop c6input 0]) =
      [MIAction.log "console" "a\n", MIAction.log "console" "b\n"] ∧
    consoleActs (feedChunks freshDemux [c6input]) =
      [MIAction.log "console" "b\n"] ∧
    ([MIAction.log "console" "a\n", MIAction.log "console" "b\n"] ≠
      [MIAction.log "console" "b\n"]) := by
  decide

/-- C6 amended: starting from a demultiplexer whose accumulation buffer is
the empty string (the state after any previous delivery has been fully
processed), feeding `"~\"a\"\n~\"b\"\n"` as two chunks split at any byte
offset yields exactly the two decoded console stream lines `a` then `b`,
identical to feeding it as a single chunk; on a freshly constructed engine
the claim fails, because the uninitialized buffer is string-coerced to the
text `undefined`, which corrupts the first line at some split points. -/
theorem c6_split_invariance : ∀ k : Fin 11,
    consoleActs (feedChunks emptyBufDemux [strTake c6input k.val, strDrop c6input k.val]) =
      consoleActs (feedChunks emptyBufDemux [c6input]) ∧
    consoleActs (feedChunks emptyBufDemux [c6input]) =
      [MIAction.log "console" "a\n", MIAction.log "console" "b\n"] := by
  decide

/-- C1 witness: the first two commands of a session go out as
`1-...` and `2-...`. -/
theorem c1_wire_format_witness :
    (sendMany initMI2 ["gdb-set target-async on", "break-insert main"]).2 =
      ["1-gdb-set target-async on\n", "2-break-insert main\n"] := by
  have h := (c1_wire_format ["gdb-set target-async on", "break-insert main"]).1
  rw [h]
  decide

/-- C10 witness: the concrete location argument for `countCondition "0"`
coincides with the one for no count condition at all. -/
theorem c10_zero_count_witness :
    buildBreakLoc ⟨some "0", none, none, some "main.c", 7⟩ =
      buildBreakLoc ⟨none, none, none, some "main.c", 7⟩ ∧
    buildBreakLoc ⟨none, none, none, some "main.c", 7⟩ = BpBuild.ok "\"main.c:7\"" [] :=
  ⟨c10_zero_count none none (some "main.c") 7, by decide⟩

/-- C6 witness: the mid-sequence split at byte offset 5 produces the two
decoded console lines of the single-chunk delivery. -/
theorem c6_split_invariance_witness :
    consoleActs (feedChunks emptyBufDemux [strTake c6input 5, strDrop c6input 5]) =
      consoleActs (feedChunks emptyBufDemux [c6input]) ∧
    consoleActs (feedChunks emptyBufDemux [c6input]) =
      [MIAction.log "console" "a\n", MIAction.log "console" "b\n"] :=
  c6_split_invariance 5
